import Mathlib

/-!
Shallow embedding of the `NewsBiasFHE` Solidity contract
(src/contracts/NewsBiasFHE.sol) and proofs about its behaviour.

Modelling conventions:
* `uint32` / `uint256` values are `Nat` with explicit `% 2 ^ 32` or checked
  bounds (`< 2 ^ 32`, `< 2 ^ 256`) where Solidity 0.8 checked arithmetic
  would revert on overflow.
* Encrypted `euint32` handles are opaque; a stored counter handle is modelled
  as `Option Nat`: `none` is the uninitialized (zero) handle that
  `FHE.isInitialized` rejects, `some v` an initialized handle whose
  homomorphic content is `v`.  `FHE.asEuint32 0` yields `some 0`,
  `FHE.add h 1` yields `some ((v + 1) % 2 ^ 32)`.
* Addresses are `Nat`.  `keccak256` of a category label is abstracted as an
  arbitrary function `hashOf : String → Nat` passed to the operations that
  use it.
* External effects (`FHE.requestDecryption` returning a fresh request id,
  `FHE.checkSignatures` succeeding or reverting) are oracle inputs: the
  request id is a parameter, signature validity is a `Bool` parameter.
* A reverting transaction is an `Except Err` error; Solidity reverts roll
  back all state, which `applyResult` makes explicit.
* `abi.decode(cleartexts, (uint32[]))` followed by indexing 0..2 is modelled
  as a `List Nat` that must have length ≥ 3 with each decoded word < 2 ^ 32;
  any violation reverts (`MalformedPayload`).
-/

namespace NewsBias

/-- Error taxonomy.  The constructors cover every revert reason the contract
can produce, plus `NotFound`, which the specification's error taxonomy names
but the contract never raises (kept so that claims about `NotFound` are
statable). -/
inductive Err where
  | Unauthorized
  | AlreadyAnalyzed
  | InvalidRequest
  | InvalidProof
  | MalformedPayload
  | CategoryNotFound
  | NotFound
  | Overflow
  deriving DecidableEq, Repr

/-- `struct EncryptedArticle` (handles kept as opaque numeric tokens). -/
structure EncryptedArticle where
  articleId : Nat
  encryptedContent : Nat
  encryptedSentiment : Nat
  encryptedKeywords : Nat
  timestamp : Nat
  deriving DecidableEq, Repr

/-- `struct BiasAnalysis`. -/
structure BiasAnalysis where
  biasScore : String
  comparisonResult : String
  mediaOutlet : String
  isAnalyzed : Bool
  deriving DecidableEq, Repr

/-- The contract's storage.  Solidity mappings are total functions whose
default values are baked into the initial state. -/
structure ContractState where
  articleCount : Nat
  articles : Nat → EncryptedArticle
  analyses : Nat → BiasAnalysis
  encryptedBiasCount : String → Option Nat
  biasCategoryList : List String
  requestToArticleId : Nat → Nat
  authorizedAnalysts : Nat → Bool

/-- Point update of a `Nat`-keyed mapping. -/
def updN {α : Type} (f : Nat → α) (k : Nat) (v : α) : Nat → α :=
  fun i => if i = k then v else f i

/-- Point update of a `String`-keyed mapping. -/
def updS {α : Type} (f : String → α) (k : String) (v : α) : String → α :=
  fun i => if i = k then v else f i

/-- The default (never-written) `BiasAnalysis` mapping value. -/
def emptyAnalysis : BiasAnalysis := ⟨"", "", "", false⟩

/-- The default (never-written) `EncryptedArticle` mapping value. -/
def emptyArticle : EncryptedArticle := ⟨0, 0, 0, 0, 0⟩

/-- Contract storage right after the constructor ran with `msg.sender =
deployer`: all mappings at their defaults except the deployer's
authorization. -/
def initState (deployer : Nat) : ContractState :=
  { articleCount := 0
    articles := fun _ => emptyArticle
    analyses := fun _ => emptyAnalysis
    encryptedBiasCount := fun _ => none
    biasCategoryList := []
    requestToArticleId := fun _ => 0
    authorizedAnalysts := fun a => a == deployer }

/-- `calculateBiasScore` (private pure).  `uint32` checked arithmetic: each
of `contentScore * 2`, `sentiment * 3` and their sum reverts (`none`) when it
does not fit in 32 bits; otherwise the label is chosen by descending
threshold checks on `score = (contentScore * 2 + sentiment * 3) / 5`. -/
def calculateBiasScore (contentScore sentiment : Nat) : Option String :=
  if contentScore * 2 < 2 ^ 32 then
    if sentiment * 3 < 2 ^ 32 then
      if contentScore * 2 + sentiment * 3 < 2 ^ 32 then
        let score := (contentScore * 2 + sentiment * 3) / 5
        if score > 80 then some "HighlyBiased"
        else if score > 60 then some "ModeratelyBiased"
        else if score > 40 then some "SlightlyBiased"
        else some "Neutral"
      else none
    else none
  else none

/-- `compareWithBaseline` (private pure).  Guarded subtraction, so no
underflow is possible; total on all inputs. -/
def compareWithBaseline (contentScore sentiment : Nat) : String :=
  let baseline := 50
  let contentDiff := if contentScore > baseline then contentScore - baseline
    else baseline - contentScore
  let sentimentDiff := if sentiment > baseline then sentiment - baseline
    else baseline - sentiment
  if contentDiff > 30 ∨ sentimentDiff > 30 then "SignificantDeviation"
  else if contentDiff > 15 ∨ sentimentDiff > 15 then "ModerateDeviation"
  else "WithinNormalRange"

/-- `identifyMediaOutlet` (private pure). -/
def identifyMediaOutlet (keywords : Nat) : String :=
  if keywords % 5 = 0 then "OutletA"
  else if keywords % 5 = 1 then "OutletB"
  else if keywords % 5 = 2 then "OutletC"
  else if keywords % 5 = 3 then "OutletD"
  else "OutletE"

/-- `getBiasCategoryFromHash`: linear scan of the discovery list, first label
whose hash matches; `none` models the `revert("Category not found")`. -/
def getBiasCategoryFromHash (hashOf : String → Nat) (h : Nat) :
    List String → Option String
  | [] => none
  | c :: rest =>
    if hashOf c = h then some c else getBiasCategoryFromHash hashOf h rest

/-- `authorizeAnalyst` (gated by `onlyAnalyst`). -/
def authorizeAnalyst (s : ContractState) (caller target : Nat) :
    Except Err ContractState :=
  if s.authorizedAnalysts caller = false then .error .Unauthorized
  else .ok { s with authorizedAnalysts := fun a =>
    if a = target then true else s.authorizedAnalysts a }

/-- `submitEncryptedArticle` (gated by `onlyAnalyst`).  `articleCount += 1`
is `uint256` checked arithmetic; `now` stands for `block.timestamp`, the
three handle arguments are stored opaquely, and the assigned id is the
incremented counter. -/
def submitEncryptedArticle (s : ContractState) (caller now c se k : Nat) :
    Except Err ContractState :=
  if s.authorizedAnalysts caller = false then .error .Unauthorized
  else if s.articleCount + 1 < 2 ^ 256 then
    let newId := s.articleCount + 1
    .ok { s with
      articleCount := newId
      articles := updN s.articles newId ⟨newId, c, se, k, now⟩
      analyses := updN s.analyses newId ⟨"", "", "", false⟩ }
  else .error .Overflow

/-- `requestBiasAnalysis` (gated by `onlyAnalyst`).  Its only guard is
`require(!analyses[articleId].isAnalyzed)`; the fresh request id `reqId`
returned by `FHE.requestDecryption` is an oracle input, and the only state
effect is `requestToArticleId[reqId] = articleId`.  Note the source performs
no existence check on `articleId`. -/
def requestBiasAnalysis (s : ContractState) (caller articleId reqId : Nat) :
    Except Err ContractState :=
  if s.authorizedAnalysts caller = false then .error .Unauthorized
  else if (s.analyses articleId).isAnalyzed then .error .AlreadyAnalyzed
  else .ok { s with requestToArticleId := updN s.requestToArticleId reqId articleId }

/-- `analyzeBias`, the decryption callback for articles.  It is `public`
with no modifier, so `caller` is accepted unconditionally.  Guards in source
order: `requestToArticleId[requestId] != 0`, `!analysis.isAnalyzed`,
`FHE.checkSignatures` (abstracted as `sigOk`), `abi.decode` of three
`uint32` words.  On success it writes the three labels, sets
`isAnalyzed = true`, lazily creates the category counter (pushing the label
onto the discovery list), then homomorphically adds one.  The source never
deletes `requestToArticleId[requestId]`. -/
def analyzeBias (s : ContractState) (caller requestId : Nat)
    (cleartexts : List Nat) (sigOk : Bool) : Except Err ContractState :=
  let articleId := s.requestToArticleId requestId
  if articleId = 0 then .error .InvalidRequest
  else if (s.analyses articleId).isAnalyzed then .error .AlreadyAnalyzed
  else if sigOk = false then .error .InvalidProof
  else if cleartexts.length < 3 then .error .MalformedPayload
  else
    let contentScore := cleartexts.getD 0 0
    let sentiment := cleartexts.getD 1 0
    let keywords := cleartexts.getD 2 0
    if contentScore < 2 ^ 32 ∧ sentiment < 2 ^ 32 ∧ keywords < 2 ^ 32 then
      match calculateBiasScore contentScore sentiment with
      | none => .error .Overflow
      | some tier =>
        let analysis : BiasAnalysis :=
          ⟨tier, compareWithBaseline contentScore sentiment,
            identifyMediaOutlet keywords, true⟩
        let s1 := { s with analyses := updN s.analyses articleId analysis }
        let s2 :=
          if (s1.encryptedBiasCount tier).isNone then
            { s1 with
              encryptedBiasCount := updS s1.encryptedBiasCount tier (some 0)
              biasCategoryList := s1.biasCategoryList ++ [tier] }
          else s1
        let bumped := some (((s2.encryptedBiasCount tier).getD 0 + 1) % 2 ^ 32)
        .ok { s2 with encryptedBiasCount := updS s2.encryptedBiasCount tier bumped }
    else .error .MalformedPayload

/-- `getBiasAnalysis` (view).  Total: an unknown id reads the mapping's
default value; the source performs no existence check. -/
def getBiasAnalysis (s : ContractState) (articleId : Nat) :
    String × String × String × Bool :=
  let ba := s.analyses articleId
  (ba.biasScore, ba.comparisonResult, ba.mediaOutlet, ba.isAnalyzed)

/-- `requestBiasCountDecryption` (gated by `onlyAnalyst`):
`require(FHE.isInitialized(count))`, then stores the label's hash in the same
`requestToArticleId` mapping under the oracle-provided request id. -/
def requestBiasCountDecryption (s : ContractState) (caller : Nat)
    (biasCategory : String) (reqId : Nat) (hashOf : String → Nat) :
    Except Err ContractState :=
  if s.authorizedAnalysts caller = false then .error .Unauthorized
  else if (s.encryptedBiasCount biasCategory).isNone then .error .CategoryNotFound
  else
    let m := updN s.requestToArticleId reqId (hashOf biasCategory)
    .ok { s with requestToArticleId := m }

/-- `decryptBiasCount`, the decryption callback for counters.  Unlike
`analyzeBias` it carries the `onlyAnalyst` modifier, which runs before the
body.  The body reverse-looks-up the category from its stored hash, checks
signatures, decodes a single `uint32`, and then discards it: no state
change. -/
def decryptBiasCount (s : ContractState) (caller requestId : Nat)
    (cleartexts : List Nat) (sigOk : Bool) (hashOf : String → Nat) :
    Except Err ContractState :=
  if s.authorizedAnalysts caller = false then .error .Unauthorized
  else
    match getBiasCategoryFromHash hashOf (s.requestToArticleId requestId)
        s.biasCategoryList with
    | none => .error .CategoryNotFound
    | some _ =>
      if sigOk = false then .error .InvalidProof
      else if cleartexts.length < 1 then .error .MalformedPayload
      else .ok s

/-- Transaction outcome: a revert rolls the state back. -/
def applyResult (s : ContractState) (e : Except Err ContractState) :
    ContractState :=
  match e with
  | .ok s' => s'
  | .error _ => s

/-- Boolean success test on a transaction outcome. -/
def isOkE (e : Except Err ContractState) : Bool :=
  match e with
  | .ok _ => true
  | .error _ => false

/-- Error projection of a transaction outcome. -/
def errOf (e : Except Err ContractState) : Option Err :=
  match e with
  | .ok _ => none
  | .error x => some x

/-- One externally-invokable transaction, with every oracle input (caller,
timestamp, fresh request id, decoded cleartexts, signature validity)
explicit. -/
inductive Tx where
  | submit (caller now c se k : Nat)
  | authorize (caller target : Nat)
  | request (caller articleId reqId : Nat)
  | callback (caller requestId : Nat) (cleartexts : List Nat) (sigOk : Bool)
  | requestCount (caller : Nat) (category : String) (reqId : Nat)
  | countCallback (caller requestId : Nat) (cleartexts : List Nat) (sigOk : Bool)

/-- Execute one transaction against the state, rolling back on revert. -/
def applyTx (hashOf : String → Nat) (s : ContractState) : Tx → ContractState
  | .submit caller now c se k =>
    applyResult s (submitEncryptedArticle s caller now c se k)
  | .authorize caller target => applyResult s (authorizeAnalyst s caller target)
  | .request caller articleId reqId =>
    applyResult s (requestBiasAnalysis s caller articleId reqId)
  | .callback caller requestId ct sigOk =>
    applyResult s (analyzeBias s caller requestId ct sigOk)
  | .requestCount caller category reqId =>
    applyResult s (requestBiasCountDecryption s caller category reqId hashOf)
  | .countCallback caller requestId ct sigOk =>
    applyResult s (decryptBiasCount s caller requestId ct sigOk hashOf)

/-- Run a whole transaction trace from the freshly-deployed contract. -/
def execTrace (hashOf : String → Nat) (deployer : Nat) (txs : List Tx) :
    ContractState :=
  txs.foldl (applyTx hashOf) (initState deployer)

/-- The article ids assigned by the successful submissions of a trace, in
order (a successful submission assigns `articleCount + 1`). -/
def assignedIds (hashOf : String → Nat) (s : ContractState) :
    List Tx → List Nat
  | [] => []
  | t :: rest =>
    let tail := assignedIds hashOf (applyTx hashOf s t) rest
    match t with
    | .submit caller now c se k =>
      if isOkE (submitEncryptedArticle s caller now c se k)
      then (s.articleCount + 1) :: tail
      else tail
    | _ => tail

/-- Lock-step invariant of the Category Tally Ledger: the discovery list has
no duplicates, and a label has an initialized counter exactly when it is on
the list. -/
def tallyInvariant (s : ContractState) : Prop :=
  s.biasCategoryList.Nodup ∧
  ∀ label : String,
    (s.encryptedBiasCount label).isSome = true ↔ label ∈ s.biasCategoryList

/-- Modelled from the spec: the Bias Classifier's tier rule, transcribed
from the specification's own words (score `(c*2 + s*3)/5`, truncating
division on unbounded naturals, descending threshold checks).  Used to state
refinement of `calculateBiasScore` against the spec. -/
def biasTierSpec (contentScore sentiment : Nat) : String :=
  let score := (contentScore * 2 + sentiment * 3) / 5
  if score > 80 then "HighlyBiased"
  else if score > 60 then "ModeratelyBiased"
  else if score > 40 then "SlightlyBiased"
  else "Neutral"

/-- Modelled from the spec: the deviation rule in the specification's own
words: absolute differences from baseline 50, classified by the maximum
difference. -/
def deviationSpec (contentScore sentiment : Nat) : String :=
  let contentDiff := ((contentScore : Int) - 50).natAbs
  let sentimentDiff := ((sentiment : Int) - 50).natAbs
  if max contentDiff sentimentDiff > 30 then "SignificantDeviation"
  else if max contentDiff sentimentDiff > 15 then "ModerateDeviation"
  else "WithinNormalRange"

/-- A trivial concrete label-hash oracle for the worked examples. -/
def hashZero : String → Nat := fun _ => 0

/-- Example state: deployer `1` submitted one article (id 1) at time 10 with
handles 5, 6, 7. -/
def exS1 : ContractState :=
  applyTx hashZero (initState 1) (.submit 1 10 5 6 7)

/-- Example state: on top of `exS1`, the deployer requested analysis of
article 1 and the oracle issued request id 42. -/
def exS2 : ContractState :=
  applyTx hashZero exS1 (.request 1 1 42)

/-- Example state: on top of `exS2`, the decryption callback for request 42
was delivered once with cleartexts `[90, 90, 7]` and a valid signature. -/
def exS3 : ContractState :=
  applyResult exS2 (analyzeBias exS2 9 42 [90, 90, 7] true)

/-- A successful `submitEncryptedArticle` increments `articleCount` and
leaves the tally ledger untouched. -/
theorem submitEncryptedArticle_ok_frame {s s' : ContractState}
    {caller now c se k : Nat}
    (h : submitEncryptedArticle s caller now c se k = .ok s') :
    s'.articleCount = s.articleCount + 1 ∧
    s'.encryptedBiasCount = s.encryptedBiasCount ∧
    s'.biasCategoryList = s.biasCategoryList ∧
    s'.requestToArticleId = s.requestToArticleId := by
  unfold submitEncryptedArticle at h
  split at h
  · exact Except.noConfusion h
  split at h
  · injection h with h'
    subst h'
    exact ⟨rfl, rfl, rfl, rfl⟩
  · exact Except.noConfusion h

/-- A successful `authorizeAnalyst` changes only the authorization set. -/
theorem authorizeAnalyst_ok_frame {s s' : ContractState} {caller target : Nat}
    (h : authorizeAnalyst s caller target = .ok s') :
    s'.articleCount = s.articleCount ∧
    s'.encryptedBiasCount = s.encryptedBiasCount ∧
    s'.biasCategoryList = s.biasCategoryList := by
  unfold authorizeAnalyst at h
  split at h
  · exact Except.noConfusion h
  · injection h with h'
    subst h'
    exact ⟨rfl, rfl, rfl⟩

/-- A successful `requestBiasAnalysis` changes only the request-correlation
mapping, writing the oracle-issued request id. -/
theorem requestBiasAnalysis_ok_frame {s s' : ContractState}
    {caller articleId reqId : Nat}
    (h : requestBiasAnalysis s caller articleId reqId = .ok s') :
    s'.articleCount = s.articleCount ∧
    s'.encryptedBiasCount = s.encryptedBiasCount ∧
    s'.biasCategoryList = s.biasCategoryList ∧
    s'.analyses = s.analyses ∧
    s'.requestToArticleId = updN s.requestToArticleId reqId articleId := by
  unfold requestBiasAnalysis at h
  split at h
  · exact Except.noConfusion h
  split at h
  · exact Except.noConfusion h
  · injection h with h'
    subst h'
    exact ⟨rfl, rfl, rfl, rfl, rfl⟩

/-- A successful `requestBiasCountDecryption` changes only the
request-correlation mapping. -/
theorem requestBiasCountDecryption_ok_frame {s s' : ContractState}
    {caller reqId : Nat} {biasCategory : String} {hashOf : String → Nat}
    (h : requestBiasCountDecryption s caller biasCategory reqId hashOf = .ok s') :
    s'.articleCount = s.articleCount ∧
    s'.encryptedBiasCount = s.encryptedBiasCount ∧
    s'.biasCategoryList = s.biasCategoryList := by
  unfold requestBiasCountDecryption at h
  split at h
  · exact Except.noConfusion h
  split at h
  · exact Except.noConfusion h
  · injection h with h'
    subst h'
    exact ⟨rfl, rfl, rfl⟩

/-- A successful `decryptBiasCount` discards the decoded count: the state is
returned unchanged. -/
theorem decryptBiasCount_ok_eq {s s' : ContractState} {caller requestId : Nat}
    {ct : List Nat} {sigOk : Bool} {hashOf : String → Nat}
    (h : decryptBiasCount s caller requestId ct sigOk hashOf = .ok s') :
    s' = s := by
  unfold decryptBiasCount at h
  split at h
  · exact Except.noConfusion h
  split at h
  · exact Except.noConfusion h
  split at h
  · exact Except.noConfusion h
  split at h
  · exact Except.noConfusion h
  · injection h with h'
    exact h'.symm

/-- Shape of a successful `analyzeBias` callback: the request id had a
nonzero mapping, the article was not yet analyzed, `articleCount` and the
whole request-correlation mapping are untouched (in particular the consumed
request id is NOT deleted), the article is now analyzed, and some tier label
got its counter initialized-or-bumped, with the discovery list extended
exactly when the tier was new. -/
theorem analyzeBias_ok_frame {s s' : ContractState} {caller r : Nat}
    {ct : List Nat} {sig : Bool}
    (h : analyzeBias s caller r ct sig = .ok s') :
    s.requestToArticleId r ≠ 0 ∧
    (s.analyses (s.requestToArticleId r)).isAnalyzed = false ∧
    s'.articleCount = s.articleCount ∧
    s'.requestToArticleId = s.requestToArticleId ∧
    (s'.analyses (s.requestToArticleId r)).isAnalyzed = true ∧
    ∃ tier : String,
      (∀ label : String, (s'.encryptedBiasCount label).isSome = true ↔
        (label = tier ∨ (s.encryptedBiasCount label).isSome = true)) ∧
      ((s.encryptedBiasCount tier).isSome = false ∧
          s'.biasCategoryList = s.biasCategoryList ++ [tier] ∨
        (s.encryptedBiasCount tier).isSome = true ∧
          s'.biasCategoryList = s.biasCategoryList) := by
  unfold analyzeBias at h
  dsimp only at h
  split at h
  · exact Except.noConfusion h
  rename_i h0
  split at h
  · exact Except.noConfusion h
  rename_i h1
  split at h
  · exact Except.noConfusion h
  split at h
  · exact Except.noConfusion h
  split at h
  case isFalse => exact Except.noConfusion h
  split at h
  case h_1 => exact Except.noConfusion h
  rename_i tier htier
  by_cases hnew : (s.encryptedBiasCount tier).isNone = true
  · rw [if_pos hnew] at h
    injection h with h'
    subst h'
    refine ⟨h0, by simpa using h1, rfl, rfl, by simp [updN], tier, ?_, ?_⟩
    · intro label
      by_cases hl : label = tier
      · subst hl
        simp [updS]
      · simp [updS, hl]
    · left
      refine ⟨by simpa using hnew, rfl⟩
  · rw [if_neg hnew] at h
    injection h with h'
    subst h'
    refine ⟨h0, by simpa using h1, rfl, rfl, by simp [updN], tier, ?_, ?_⟩
    · intro label
      by_cases hl : label = tier
      · subst hl
        simp [updS]
      · simp [updS, hl]
    · right
      refine ⟨?_, rfl⟩
      cases hv : s.encryptedBiasCount tier with
      | none => rw [hv] at hnew; exact absurd rfl hnew
      | some v => rfl

/-- Claim C5 counterexample: at `contentScore = 2 ^ 31`, `sentiment = 0` —
a valid pair of `uint32` inputs — `calculateBiasScore` aborts with a checked
32-bit overflow (`none`) instead of returning the label `"HighlyBiased"`
that the claimed formula prescribes, so the claim does not hold for every
pair of unsigned inputs. -/
theorem calculateBiasScore_not_total_cex :
    calculateBiasScore (2 ^ 31) 0 = none ∧
    biasTierSpec (2 ^ 31) 0 = "HighlyBiased" ∧ 2 ^ 31 < 2 ^ 32 := by
  refine ⟨by decide, by decide, by norm_num⟩

/-- Claim C5 (amended): for every pair of inputs on which the checked 32-bit
arithmetic does not overflow (`contentScore * 2`, `sentiment * 3` and their
sum all fit in 32 bits), `calculateBiasScore` returns exactly the label of
the spec's rule: `score = (contentScore * 2 + sentiment * 3) / 5` with
truncating division and strictly descending threshold checks; in particular
`(100, 100)` gives `"HighlyBiased"`, score exactly 80 (inputs `(80, 80)`)
gives `"ModeratelyBiased"`, and score exactly 40 (inputs `(40, 40)`) gives
`"Neutral"`. -/
theorem calculateBiasScore_matches_spec (c s : Nat)
    (h1 : c * 2 < 2 ^ 32) (h2 : s * 3 < 2 ^ 32)
    (h3 : c * 2 + s * 3 < 2 ^ 32) :
    calculateBiasScore c s = some (biasTierSpec c s) ∧
    calculateBiasScore 100 100 = some "HighlyBiased" ∧
    calculateBiasScore 80 80 = some "ModeratelyBiased" ∧
    calculateBiasScore 40 40 = some "Neutral" := by
  refine ⟨?_, by decide, by decide, by decide⟩
  unfold calculateBiasScore biasTierSpec
  rw [if_pos h1, if_pos h2, if_pos h3]
  dsimp only
  split_ifs <;> rfl

/-- Witness for the amended C5 theorem at `(100, 100)`. -/
theorem calculateBiasScore_matches_spec_witness :
    calculateBiasScore 100 100 = some "HighlyBiased" := by
  have h := calculateBiasScore_matches_spec 100 100 (by norm_num) (by norm_num)
    (by norm_num)
  exact h.1.trans (by decide)

/-- Claim C6: `compareWithBaseline` agrees with the spec's deviation rule
(absolute differences from baseline 50, classified by the larger one) on
every pair of inputs, and in particular gives `"ModerateDeviation"` at
`(80, 50)` and `"SignificantDeviation"` at `(81, 50)`. -/
theorem compareWithBaseline_matches_spec :
    (∀ c s : Nat, compareWithBaseline c s = deviationSpec c s) ∧
    compareWithBaseline 80 50 = "ModerateDeviation" ∧
    compareWithBaseline 81 50 = "SignificantDeviation" := by
  refine ⟨?_, by decide, by decide⟩
  intro c s
  unfold compareWithBaseline deviationSpec
  dsimp only
  have hA : ((c : Int) - 50).natAbs = (if c > 50 then c - 50 else 50 - c) := by
    split <;> omega
  have hB : ((s : Int) - 50).natAbs = (if s > 50 then s - 50 else 50 - s) := by
    split <;> omega
  rw [hA, hB]
  generalize (if c > 50 then c - 50 else 50 - c) = A
  generalize (if s > 50 then s - 50 else 50 - s) = B
  split_ifs <;> first | rfl | omega

/-- Claim C10: `calculateBiasScore` works on checked 32-bit unsigned
arithmetic: a label is returned only when `contentScore * 2 + sentiment * 3`
fits in 32 bits, any input making an intermediate product or the sum exceed
`2 ^ 32 - 1` aborts with an overflow (`none`), and in particular every
`contentScore ≥ 2 ^ 31` aborts. -/
theorem calculateBiasScore_checked_arithmetic (c s : Nat)
    (hc : c < 2 ^ 32) (hs : s < 2 ^ 32) :
    ((calculateBiasScore c s).isSome = true → c * 2 + s * 3 < 2 ^ 32) ∧
    (c * 2 ≥ 2 ^ 32 ∨ s * 3 ≥ 2 ^ 32 ∨ c * 2 + s * 3 ≥ 2 ^ 32 →
      calculateBiasScore c s = none) ∧
    (c ≥ 2 ^ 31 → calculateBiasScore c s = none) := by
  refine ⟨?_, ?_, ?_⟩
  · intro hsome
    unfold calculateBiasScore at hsome
    split_ifs at hsome <;> first | assumption | simp_all
  · intro hbad
    unfold calculateBiasScore
    split_ifs <;> first | rfl | omega
  · intro h31
    unfold calculateBiasScore
    split_ifs <;> first | rfl | omega

/-- Witness for the C10 theorem at `(2 ^ 31, 0)`. -/
theorem calculateBiasScore_checked_arithmetic_witness :
    calculateBiasScore (2 ^ 31) 0 = none := by
  have h := calculateBiasScore_checked_arithmetic (2 ^ 31) 0 (by norm_num)
    (by norm_num)
  exact h.2.2 (by norm_num)

/-- Claim C1 counterexample: request 42 targets article 1 in `exS2`.  The
first delivery of the callback succeeds, but it does NOT remove the
request-id mapping (it still maps 42 to 1 afterwards), and the second
delivery of the same `(requestId, cleartexts, proof)` fails with
`AlreadyAnalyzed`, not with `InvalidRequest`. -/
theorem replay_mapping_not_removed_cex :
    isOkE (analyzeBias exS2 9 42 [90, 90, 7] true) = true ∧
    exS3.requestToArticleId 42 = 1 ∧
    errOf (analyzeBias exS3 9 42 [90, 90, 7] true) = some .AlreadyAnalyzed ∧
    errOf (analyzeBias exS3 9 42 [90, 90, 7] true) ≠ some .InvalidRequest := by
  decide

/-- Claim C1 (amended): after a successful delivery of the callback the
request-id mapping is left in place (the correlator entry is never deleted);
a second delivery of the same `(requestId, cleartexts, proof)` fails with
`AlreadyAnalyzed` — because the targeted article is already analyzed — and
the second delivery leaves the state (hence the article) unchanged. -/
theorem analyzeBias_replay_behavior (s s' : ContractState)
    (caller caller2 r : Nat) (ct : List Nat) (sig : Bool)
    (h : analyzeBias s caller r ct sig = .ok s') :
    s'.requestToArticleId r = s.requestToArticleId r ∧
    s'.requestToArticleId r ≠ 0 ∧
    analyzeBias s' caller2 r ct sig = .error .AlreadyAnalyzed ∧
    applyResult s' (analyzeBias s' caller2 r ct sig) = s' := by
  obtain ⟨h0, -, -, hreq, hana, -⟩ := analyzeBias_ok_frame h
  have hr : s'.requestToArticleId r = s.requestToArticleId r := by rw [hreq]
  have herr : analyzeBias s' caller2 r ct sig = .error .AlreadyAnalyzed := by
    unfold analyzeBias
    dsimp only
    rw [hr, if_neg h0, if_pos hana]
  exact ⟨hr, by rw [hr]; exact h0, herr, by rw [herr]; rfl⟩

/-- Witness for the amended C1 theorem on the `exS2` scenario. -/
theorem analyzeBias_replay_behavior_witness :
    analyzeBias exS3 9 42 [90, 90, 7] true = .error .AlreadyAnalyzed :=
  (analyzeBias_replay_behavior exS2 exS3 9 9 42 [90, 90, 7] true rfl).2.2.1

/-- Claim C2: a duplicate commit — the callback running against an article
whose `isAnalyzed` flag is already `true` — fails with `AlreadyAnalyzed`,
and the state, in particular the `BiasAnalysis` written by the first commit,
is unchanged by the failed second attempt. -/
theorem analyzeBias_duplicate_rejected (s : ContractState) (caller r : Nat)
    (ct : List Nat) (sig : Bool)
    (h0 : s.requestToArticleId r ≠ 0)
    (h1 : (s.analyses (s.requestToArticleId r)).isAnalyzed = true) :
    analyzeBias s caller r ct sig = .error .AlreadyAnalyzed ∧
    applyResult s (analyzeBias s caller r ct sig) = s ∧
    getBiasAnalysis (applyResult s (analyzeBias s caller r ct sig))
        (s.requestToArticleId r) = getBiasAnalysis s (s.requestToArticleId r) := by
  have herr : analyzeBias s caller r ct sig = .error .AlreadyAnalyzed := by
    unfold analyzeBias
    dsimp only
    rw [if_neg h0, if_pos h1]
  exact ⟨herr, by rw [herr]; rfl, by rw [herr]; rfl⟩

/-- Witness for the C2 theorem: in `exS3` article 1 is already analyzed and
request 42 still maps to it. -/
theorem analyzeBias_duplicate_rejected_witness :
    analyzeBias exS3 9 42 [90, 90, 7] true = .error .AlreadyAnalyzed :=
  (analyzeBias_duplicate_rejected exS3 9 42 [90, 90, 7] true (by decide)
    (by decide)).1

/-- Claim C3 counterexample: in `exS1` only article 1 exists, so id 5 is
unknown; yet `requestBiasAnalysis` for id 5 does not fail with `NotFound` —
it succeeds — and `getBiasAnalysis` for id 5 returns the default empty
record instead of failing. -/
theorem unknown_id_not_rejected_cex :
    exS1.articleCount = 1 ∧
    errOf (requestBiasAnalysis exS1 1 5 99) ≠ some .NotFound ∧
    isOkE (requestBiasAnalysis exS1 1 5 99) = true ∧
    getBiasAnalysis exS1 5 = ("", "", "", false) := by
  decide

/-- Claim C3 (amended): the code performs no existence check on article ids.
For an id never assigned (whose analysis record is therefore the default,
un-analyzed one), `requestBiasAnalysis` from an authorized caller succeeds
and registers the request, and `getBiasAnalysis` returns the stored record —
the default `("", "", "", false)` for an unknown id — rather than failing
with `NotFound`. -/
theorem unknown_id_no_existence_check (s : ContractState)
    (caller id reqId : Nat)
    (hauth : s.authorizedAnalysts caller = true)
    (hun : (s.analyses id).isAnalyzed = false) :
    (∃ s', requestBiasAnalysis s caller id reqId = .ok s' ∧
        s'.requestToArticleId reqId = id) ∧
    getBiasAnalysis s id =
      ((s.analyses id).biasScore, (s.analyses id).comparisonResult,
        (s.analyses id).mediaOutlet, (s.analyses id).isAnalyzed) := by
  constructor
  · refine ⟨{ s with requestToArticleId := updN s.requestToArticleId reqId id },
      ?_, ?_⟩
    · unfold requestBiasAnalysis
      rw [if_neg (by simp [hauth]), if_neg (by simp [hun])]
    · simp [updN]
  · rfl

/-- Witness for the amended C3 theorem: unknown id 5 in `exS1`. -/
theorem unknown_id_no_existence_check_witness :
    getBiasAnalysis exS1 5 = ("", "", "", false) := by
  have h := unknown_id_no_existence_check exS1 1 5 99 (by decide) (by decide)
  exact h.2.trans (by decide)

/-- Claim C4 counterexample: in `exS2` article 1 has the unresolved
outstanding request 42, yet a second `requestBiasAnalysis` for article 1 is
not rejected: it succeeds and afterwards both request ids 42 and 43 map to
article 1. -/
theorem rerequest_not_rejected_cex :
    exS2.requestToArticleId 42 = 1 ∧
    (exS2.analyses 1).isAnalyzed = false ∧
    isOkE (requestBiasAnalysis exS2 1 1 43) = true ∧
    (applyResult exS2 (requestBiasAnalysis exS2 1 1 43)).requestToArticleId 42
      = 1 ∧
    (applyResult exS2 (requestBiasAnalysis exS2 1 1 43)).requestToArticleId 43
      = 1 := by
  decide

/-- Claim C4 (amended): the code does not enforce at most one outstanding
request per article.  `requestBiasAnalysis` rejects only already-analyzed
articles, so re-requesting an article whose earlier request `r1` is still
unresolved succeeds and registers a second request id `r2` mapping to the
same article. -/
theorem rerequest_registers_second (s : ContractState)
    (caller id r1 r2 : Nat)
    (hauth : s.authorizedAnalysts caller = true)
    (hpend : (s.analyses id).isAnalyzed = false)
    (hout : s.requestToArticleId r1 = id) :
    ∃ s', requestBiasAnalysis s caller id r2 = .ok s' ∧
      s'.requestToArticleId r1 = id ∧ s'.requestToArticleId r2 = id := by
  refine ⟨{ s with requestToArticleId := updN s.requestToArticleId r2 id },
    ?_, ?_, ?_⟩
  · unfold requestBiasAnalysis
    rw [if_neg (by simp [hauth]), if_neg (by simp [hpend])]
  · simp only [updN]
    split <;> simp [hout]
  · simp [updN]

/-- Witness for the amended C4 theorem on the `exS2` scenario. -/
theorem rerequest_registers_second_witness :
    isOkE (requestBiasAnalysis exS2 1 1 43) = true := by
  obtain ⟨s', hs, -, -⟩ := rerequest_registers_second exS2 1 1 42 43
    (by decide) (by decide) (by decide)
  rw [hs]
  rfl

/-- Claim C9: the article callback `analyzeBias` carries no authorization
modifier — for every caller and state it never fails with `Unauthorized` —
whereas the counter callback `decryptBiasCount` carries `onlyAnalyst`, which
rejects every unauthorized caller with `Unauthorized` before any other
check (regardless of the rest of the state and arguments). -/
theorem callback_authorization_asymmetry (s s2 : ContractState)
    (caller caller2 r r2 : Nat) (ct ct2 : List Nat) (sig sig2 : Bool)
    (hashOf : String → Nat)
    (hun : s2.authorizedAnalysts caller2 = false) :
    errOf (analyzeBias s caller r ct sig) ≠ some .Unauthorized ∧
    decryptBiasCount s2 caller2 r2 ct2 sig2 hashOf = .error .Unauthorized := by
  constructor
  · intro hcontr
    unfold analyzeBias at hcontr
    dsimp only at hcontr
    repeat' split at hcontr
    all_goals simp [errOf] at hcontr
  · unfold decryptBiasCount
    rw [if_pos hun]

/-- Witness for the C9 theorem: caller 2 is not authorized in the
freshly-deployed state (deployer 1). -/
theorem callback_authorization_asymmetry_witness :
    decryptBiasCount (initState 1) 2 7 [1] true hashZero
      = .error .Unauthorized :=
  (callback_authorization_asymmetry (initState 1) (initState 1) 3 2 7 7
    [1] [1] true true hashZero (by decide)).2

/-- The freshly-deployed contract satisfies the tally lock-step invariant. -/
theorem tally_init (deployer : Nat) : tallyInvariant (initState deployer) := by
  constructor
  · exact List.nodup_nil
  · intro label
    simp [initState]

/-- Every single transaction preserves the tally lock-step invariant. -/
theorem tally_step (hashOf : String → Nat) (s : ContractState) (t : Tx)
    (hinv : tallyInvariant s) : tallyInvariant (applyTx hashOf s t) := by
  cases t with
  | submit caller now c se k =>
    cases he : submitEncryptedArticle s caller now c se k with
    | error e => simpa [applyTx, applyResult, he] using hinv
    | ok s' =>
      obtain ⟨-, hmap, hlist, -⟩ := submitEncryptedArticle_ok_frame he
      have hst : applyTx hashOf s (Tx.submit caller now c se k) = s' := by
        simp [applyTx, applyResult, he]
      rw [hst]
      exact ⟨hlist ▸ hinv.1, fun label => by rw [hmap, hlist]; exact hinv.2 label⟩
  | authorize caller target =>
    cases he : authorizeAnalyst s caller target with
    | error e => simpa [applyTx, applyResult, he] using hinv
    | ok s' =>
      obtain ⟨-, hmap, hlist⟩ := authorizeAnalyst_ok_frame he
      have hst : applyTx hashOf s (Tx.authorize caller target) = s' := by
        simp [applyTx, applyResult, he]
      rw [hst]
      exact ⟨hlist ▸ hinv.1, fun label => by rw [hmap, hlist]; exact hinv.2 label⟩
  | request caller articleId reqId =>
    cases he : requestBiasAnalysis s caller articleId reqId with
    | error e => simpa [applyTx, applyResult, he] using hinv
    | ok s' =>
      obtain ⟨-, hmap, hlist, -, -⟩ := requestBiasAnalysis_ok_frame he
      have hst : applyTx hashOf s (Tx.request caller articleId reqId) = s' := by
        simp [applyTx, applyResult, he]
      rw [hst]
      exact ⟨hlist ▸ hinv.1, fun label => by rw [hmap, hlist]; exact hinv.2 label⟩
  | requestCount caller category reqId =>
    cases he : requestBiasCountDecryption s caller category reqId hashOf with
    | error e => simpa [applyTx, applyResult, he] using hinv
    | ok s' =>
      obtain ⟨-, hmap, hlist⟩ := requestBiasCountDecryption_ok_frame he
      have hst : applyTx hashOf s (Tx.requestCount caller category reqId) = s' := by
        simp [applyTx, applyResult, he]
      rw [hst]
      exact ⟨hlist ▸ hinv.1, fun label => by rw [hmap, hlist]; exact hinv.2 label⟩
  | countCallback caller requestId ct sigOk =>
    cases he : decryptBiasCount s caller requestId ct sigOk hashOf with
    | error e => simpa [applyTx, applyResult, he] using hinv
    | ok s' =>
      have hss : s' = s := decryptBiasCount_ok_eq he
      have hst : applyTx hashOf s (Tx.countCallback caller requestId ct sigOk)
          = s' := by
        simp [applyTx, applyResult, he]
      rw [hst, hss]
      exact hinv
  | callback caller requestId ct sigOk =>
    cases he : analyzeBias s caller requestId ct sigOk with
    | error e => simpa [applyTx, applyResult, he] using hinv
    | ok s' =>
      have hst : applyTx hashOf s (Tx.callback caller requestId ct sigOk)
          = s' := by
        simp [applyTx, applyResult, he]
      rw [hst]
      obtain ⟨-, -, -, -, -, tier, hiff, hcase⟩ := analyzeBias_ok_frame he
      rcases hcase with ⟨hnew, hlist⟩ | ⟨hold, hlist⟩
      · constructor
        · rw [hlist]
          have htier : tier ∉ s.biasCategoryList := fun hmem => by
            have := (hinv.2 tier).mpr hmem
            rw [this] at hnew
            exact Bool.noConfusion hnew
          simp [List.nodup_append, hinv.1, htier]
        · intro label
          rw [hlist, hiff label, hinv.2 label]
          simp only [List.mem_append, List.mem_singleton]
          tauto
      · constructor
        · rw [hlist]
          exact hinv.1
        · intro label
          have htier : tier ∈ s.biasCategoryList := (hinv.2 tier).mp hold
          rw [hlist, hiff label, hinv.2 label]
          constructor
          · rintro (rfl | hmem)
            · exact htier
            · exact hmem
          · exact Or.inr

/-- The tally lock-step invariant holds along any fold of transactions. -/
theorem tally_fold (hashOf : String → Nat) (txs : List Tx)
    (s : ContractState) (hinv : tallyInvariant s) :
    tallyInvariant (txs.foldl (applyTx hashOf) s) := by
  induction txs generalizing s with
  | nil => exact hinv
  | cons t rest ih => exact ih _ (tally_step hashOf s t hinv)

/-- Claim C7: in every state reachable by any transaction trace from
deployment, the category discovery list has no duplicate labels (a label is
appended exactly once, when its counter is lazily created, no matter how
often that category is incremented afterward) and the discovery list and the
counter map are in lock-step: a label has an initialized counter exactly
when it is on the list, with no orphan on either side. -/
theorem tally_ledger_lockstep (hashOf : String → Nat) (deployer : Nat)
    (txs : List Tx) : tallyInvariant (execTrace hashOf deployer txs) :=
  tally_fold hashOf txs (initState deployer) (tally_init deployer)

/-- From any state, the ids assigned by the successful submissions of a
trace are the consecutive naturals starting right above the current
`articleCount`. -/
theorem assignedIds_consecutive (hashOf : String → Nat) (txs : List Tx) :
    ∀ s : ContractState, assignedIds hashOf s txs =
      List.range' (s.articleCount + 1) (assignedIds hashOf s txs).length := by
  induction txs with
  | nil => intro s; rfl
  | cons t rest ih =>
    intro s
    cases t with
    | submit caller now c se k =>
      cases he : submitEncryptedArticle s caller now c se k with
      | ok s' =>
        have hok : isOkE (submitEncryptedArticle s caller now c se k)
            = true := by
          rw [he]; rfl
        have hcount :
            (applyTx hashOf s (Tx.submit caller now c se k)).articleCount
              = s.articleCount + 1 := by
          simp [applyTx, applyResult, he, (submitEncryptedArticle_ok_frame he).1]
        have hbody : assignedIds hashOf s (Tx.submit caller now c se k :: rest)
            = (s.articleCount + 1) ::
              assignedIds hashOf
                (applyTx hashOf s (Tx.submit caller now c se k)) rest := by
          simp [assignedIds, hok]
        rw [hbody]
        have ih' := ih (applyTx hashOf s (Tx.submit caller now c se k))
        rw [hcount] at ih'
        rw [List.length_cons, List.range'_succ, ← ih']
      | error e =>
        have hok : isOkE (submitEncryptedArticle s caller now c se k)
            = false := by
          rw [he]; rfl
        have hst : applyTx hashOf s (Tx.submit caller now c se k) = s := by
          simp [applyTx, applyResult, he]
        have hbody : assignedIds hashOf s (Tx.submit caller now c se k :: rest)
            = assignedIds hashOf s rest := by
          simp [assignedIds, hok, hst]
        rw [hbody]
        exact ih s
    | authorize caller target =>
      have hcount : (applyTx hashOf s (Tx.authorize caller target)).articleCount
          = s.articleCount := by
        cases he : authorizeAnalyst s caller target with
        | error e => simp [applyTx, applyResult, he]
        | ok s' =>
          simp [applyTx, applyResult, he, (authorizeAnalyst_ok_frame he).1]
      have hbody : assignedIds hashOf s (Tx.authorize caller target :: rest)
          = assignedIds hashOf (applyTx hashOf s (Tx.authorize caller target))
              rest := by
        simp [assignedIds]
      rw [hbody]
      have ih' := ih (applyTx hashOf s (Tx.authorize caller target))
      rw [hcount] at ih'
      exact ih'
    | request caller articleId reqId =>
      have hcount :
          (applyTx hashOf s (Tx.request caller articleId reqId)).articleCount
            = s.articleCount := by
        cases he : requestBiasAnalysis s caller articleId reqId with
        | error e => simp [applyTx, applyResult, he]
        | ok s' =>
          simp [applyTx, applyResult, he, (requestBiasAnalysis_ok_frame he).1]
      have hbody :
          assignedIds hashOf s (Tx.request caller articleId reqId :: rest)
            = assignedIds hashOf
                (applyTx hashOf s (Tx.request caller articleId reqId)) rest := by
        simp [assignedIds]
      rw [hbody]
      have ih' := ih (applyTx hashOf s (Tx.request caller articleId reqId))
      rw [hcount] at ih'
      exact ih'
    | callback caller requestId ct sigOk =>
      have hcount :
          (applyTx hashOf s (Tx.callback caller requestId ct sigOk)).articleCount
            = s.articleCount := by
        cases he : analyzeBias s caller requestId ct sigOk with
        | error e => simp [applyTx, applyResult, he]
        | ok s' =>
          simp [applyTx, applyResult, he, (analyzeBias_ok_frame he).2.2.1]
      have hbody :
          assignedIds hashOf s (Tx.callback caller requestId ct sigOk :: rest)
            = assignedIds hashOf
                (applyTx hashOf s (Tx.callback caller requestId ct sigOk))
                rest := by
        simp [assignedIds]
      rw [hbody]
      have ih' := ih (applyTx hashOf s (Tx.callback caller requestId ct sigOk))
      rw [hcount] at ih'
      exact ih'
    | requestCount caller category reqId =>
      have hcount :
          (applyTx hashOf s (Tx.requestCount caller category reqId)).articleCount
            = s.articleCount := by
        cases he : requestBiasCountDecryption s caller category reqId hashOf with
        | error e => simp [applyTx, applyResult, he]
        | ok s' =>
          simp [applyTx, applyResult, he,
            (requestBiasCountDecryption_ok_frame he).1]
      have hbody :
          assignedIds hashOf s (Tx.requestCount caller category reqId :: rest)
            = assignedIds hashOf
                (applyTx hashOf s (Tx.requestCount caller category reqId))
                rest := by
        simp [assignedIds]
      rw [hbody]
      have ih' := ih (applyTx hashOf s (Tx.requestCount caller category reqId))
      rw [hcount] at ih'
      exact ih'
    | countCallback caller requestId ct sigOk =>
      have hcount :
          (applyTx hashOf s
              (Tx.countCallback caller requestId ct sigOk)).articleCount
            = s.articleCount := by
        cases he : decryptBiasCount s caller requestId ct sigOk hashOf with
        | error e => simp [applyTx, applyResult, he]
        | ok s' => simp [applyTx, applyResult, he, decryptBiasCount_ok_eq he]
      have hbody :
          assignedIds hashOf s
              (Tx.countCallback caller requestId ct sigOk :: rest)
            = assignedIds hashOf
                (applyTx hashOf s (Tx.countCallback caller requestId ct sigOk))
                rest := by
        simp [assignedIds]
      rw [hbody]
      have ih' := ih
        (applyTx hashOf s (Tx.countCallback caller requestId ct sigOk))
      rw [hcount] at ih'
      exact ih'

/-- Claim C8: over every transaction trace from deployment, the ids
assigned by the successful submissions form exactly the list
`[1, 2, ..., k]` — they start at 1 (0 is never assigned, remaining the
"no such article" sentinel of the request correlator), increase strictly,
and are never reused. -/
theorem submission_ids_sequential (hashOf : String → Nat) (deployer : Nat)
    (txs : List Tx) :
    assignedIds hashOf (initState deployer) txs =
      List.range' 1 (assignedIds hashOf (initState deployer) txs).length :=
  assignedIds_consecutive hashOf txs (initState deployer)

end NewsBias
